import Mathlib

/-
Verification of the scenario engine of swagger-api-tester.

Shallow embedding of the Python modules under src/scenario:
  context_manager.py, condition_evaluator.py, variable_extractor.py,
  scenario_executor.py.

Python values flowing through the engine (JSON-like data, context
variables, templates) are modeled by the inductive type Value below.
Python None is Value.none; floats are modeled as exact rationals (no
claim depends on IEEE rounding).  Python dicts appearing here hold
string keys (YAML/JSON objects and the engine's own dicts), preserve
insertion order, and assignment replaces in place; they are modeled by
ordered association lists with replace-or-append update.

Fallible Python code is modeled with Except String: an error value is
an uncaught Python exception, the string naming the exception as the
source raises it.
-/

mutual

inductive Value where
  | none
  | bool (b : Bool)
  | int (n : Int)
  | float (q : Rat)
  | str (s : String)
  | list (xs : VList)
  | dict (kvs : VDict)
  deriving DecidableEq

/- Python list of values (spine made explicit so that recursion over
nested values stays structural). -/
inductive VList where
  | nil
  | cons (hd : Value) (tl : VList)
  deriving DecidableEq

/- Python dict with string keys, in insertion order. -/
inductive VDict where
  | nil
  | cons (k : String) (v : Value) (tl : VDict)
  deriving DecidableEq

end

/- Build the explicit list spine from a Lean list (notation helper). -/
def VList.ofList : List Value → VList
  | [] => .nil
  | x :: xs => .cons x (VList.ofList xs)

def VDict.ofList : List (String × Value) → VDict
  | [] => .nil
  | (k, v) :: kvs => .cons k v (VDict.ofList kvs)

def Value.listOf (xs : List Value) : Value := .list (VList.ofList xs)

def Value.dictOf (kvs : List (String × Value)) : Value := .dict (VDict.ofList kvs)

def VList.toList : VList → List Value
  | .nil => []
  | .cons x xs => x :: VList.toList xs

def VList.length : VList → Nat
  | .nil => 0
  | .cons _ xs => VList.length xs + 1

/- dict.get(k): first binding wins (dicts carry no duplicate keys). -/
def VDict.get : VDict → String → Option Value
  | .nil, _ => Option.none
  | .cons k v kvs, key => if k = key then some v else VDict.get kvs key

/- dict.get(k) with Python None as default. -/
def VDict.getD : VDict → String → Value
  | kvs, key => (VDict.get kvs key).getD Value.none

/- d[k] = v: replace the existing binding in place or append. -/
def VDict.set : VDict → String → Value → VDict
  | .nil, key, v => .cons key v .nil
  | .cons k w kvs, key, v =>
      if k = key then .cons key v kvs else .cons k w (VDict.set kvs key v)

def VDict.keys : VDict → List String
  | .nil => []
  | .cons k _ kvs => k :: VDict.keys kvs

/- Characters that the token rules keep out of literals. -/
def braceL : Char := Char.ofNat 123

def braceR : Char := Char.ofNat 125

def quoteS : Char := Char.ofNat 39

def quoteD : Char := Char.ofNat 34

/- ===== Python primitive semantics shared by the modules ===== -/

/- Python truthiness: None, False, 0, 0.0, empty string/list/dict are
falsy, everything else truthy. -/
def pyTruthy : Value → Bool
  | .none => false
  | .bool b => b
  | .int n => n != 0
  | .float q => q != 0
  | .str s => s.length != 0
  | .list .nil => false
  | .list _ => true
  | .dict .nil => false
  | .dict _ => true

def isPyDigit (c : Char) : Bool := ('0' ≤ c) && (c ≤ '9')

/- str.isdigit() for ASCII input: nonempty and all digits. -/
def pyIsDigit (s : List Char) : Bool :=
  !s.isEmpty && s.all isPyDigit

def digitsToNat : List Char → Nat → Nat
  | [], acc => acc
  | c :: cs, acc => digitsToNat cs (acc * 10 + (c.toNat - 48))

/- int(s) on an already stripped string: optional sign then one or more
digits (the underscore-separator form is not modeled; no claim uses
it).  Returns Option.none where Python raises ValueError. -/
def pyInt (s : List Char) : Option Int :=
  match s with
  | [] => Option.none
  | c :: cs =>
      if c = '-' then
        if pyIsDigit cs then some (-(Int.ofNat (digitsToNat cs 0))) else Option.none
      else if c = '+' then
        if pyIsDigit cs then some (Int.ofNat (digitsToNat cs 0)) else Option.none
      else if pyIsDigit s then some (Int.ofNat (digitsToNat s 0)) else Option.none

/- float(s) on a stripped string, for the plain decimal forms
[sign] digits . digits with at least one digit present (exponent and
inf/nan forms are not modeled; no claim depends on them).  The value is
exact: no claim depends on IEEE rounding. -/
def pyFloatCore (s : List Char) : Option Rat :=
  match s.span (fun c => c ≠ '.') with
  | (intPart, rest) =>
      match rest with
      | [] => Option.none
      | _ :: fracPart =>
          if intPart.all isPyDigit && fracPart.all isPyDigit
              && (!intPart.isEmpty || !fracPart.isEmpty) then
            some ((Int.ofNat (digitsToNat intPart 0) : Rat)
              + (digitsToNat fracPart 0 : Rat) / ((10 : Rat) ^ fracPart.length))
          else Option.none

def pyFloat (s : List Char) : Option Rat :=
  match s with
  | c :: cs =>
      if c = '-' then (pyFloatCore cs).map Neg.neg
      else if c = '+' then pyFloatCore cs
      else pyFloatCore s
  | [] => Option.none

/- Python whitespace for str.strip(). -/
def isPySpace (c : Char) : Bool :=
  c = ' ' || c = '\t' || c = '\n' || c = '\r' || c = Char.ofNat 11 || c = Char.ofNat 12

def pyStrip (s : List Char) : List Char :=
  ((s.dropWhile isPySpace).reverse.dropWhile isPySpace).reverse

def pyLower (s : List Char) : List Char := s.map Char.toLower

/- needle is a prefix of hay. -/
def seqStartsWith : List Char → List Char → Bool
  | [], _ => true
  | _ :: _, [] => false
  | a :: as, b :: bs => a = b && seqStartsWith as bs

/- suffix test via the reversed prefix test. -/
def seqEndsWith (suffix s : List Char) : Bool :=
  seqStartsWith suffix.reverse s.reverse

/- Python substring containment (needle nonempty at every use site). -/
def seqContains (needle : List Char) : List Char → Bool
  | [] => seqStartsWith needle []
  | hay@(_ :: rest) => seqStartsWith needle hay || seqContains needle rest

/- s.split(sep, 1): split at the first occurrence of sep. -/
def seqSplitFirst (sep : List Char) : List Char → Option (List Char × List Char)
  | [] => Option.none
  | hay@(c :: rest) =>
      if seqStartsWith sep hay then some ([], hay.drop sep.length)
      else (seqSplitFirst sep rest).map (fun p => (c :: p.1, p.2))

/- s.split(sep) on a single-character separator, all occurrences. -/
def seqSplitAll (sep : Char) (s : List Char) : List (List Char) :=
  match s with
  | [] => [[]]
  | c :: rest =>
      match seqSplitAll sep rest with
      | [] => [[]]
      | part :: parts => if c = sep then [] :: (part :: parts) else (c :: part) :: parts

/- s.replace(old, new): non-overlapping occurrences scanned left to
right (fuel bounds the scan; length of s always suffices since every
step consumes at least one character). -/
def seqReplaceFuel (old new : List Char) : Nat → List Char → List Char
  | 0, s => s
  | _ + 1, [] => []
  | fuel + 1, hay@(c :: rest) =>
      if seqStartsWith old hay && !old.isEmpty then
        new ++ seqReplaceFuel old new fuel (hay.drop old.length)
      else c :: seqReplaceFuel old new fuel rest

def seqReplace (old new s : List Char) : List Char :=
  seqReplaceFuel old new s.length s

/- First index of character c (Python str.index without the raise). -/
def seqIdxOf (c : Char) : List Char → Option Nat
  | [] => Option.none
  | x :: xs => if x = c then some 0 else (seqIdxOf c xs).map (· + 1)

/- ===== ContextManager (src/scenario/context_manager.py) ===== -/

/- The scope argument of set is one of the three literal strings
global / scenario / step at every call site in the repository; the
ValueError branch for any other string is therefore modeled by a closed
enumeration. -/
inductive Scope where
  | global
  | scenario
  | step
  deriving DecidableEq

structure ContextManager where
  global_vars : VDict
  scenario_vars : VDict
  step_vars : VDict
  deriving DecidableEq

def ContextManager.empty : ContextManager := ⟨.nil, .nil, .nil⟩

/- ContextManager.set -/
def ContextManager.set (m : ContextManager) (name : String) (value : Value) :
    Scope → ContextManager
  | .global => { m with global_vars := m.global_vars.set name value }
  | .scenario => { m with scenario_vars := m.scenario_vars.set name value }
  | .step => { m with step_vars := m.step_vars.set name value }

/- ContextManager.get: search step, then scenario, then global, else
the default. -/
def ContextManager.get (m : ContextManager) (name : String) (dflt : Value) : Value :=
  match m.step_vars.get name with
  | some v => v
  | Option.none =>
      match m.scenario_vars.get name with
      | some v => v
      | Option.none =>
          match m.global_vars.get name with
          | some v => v
          | Option.none => dflt

/- ContextManager.clear_step -/
def ContextManager.clear_step (m : ContextManager) : ContextManager :=
  { m with step_vars := .nil }

/- ContextManager.clear_scenario -/
def ContextManager.clear_scenario (m : ContextManager) : ContextManager :=
  { m with scenario_vars := .nil, step_vars := .nil }

/- ContextManager.to_dict: dict(global=..., scenario=..., step=...)
with each scope dict shallow-copied (the pure model of the copy; the
reference/heap view used for the snapshot claims appears further
below). -/
structure ContextSnapshot where
  global_snap : VDict
  scenario_snap : VDict
  step_snap : VDict
  deriving DecidableEq

def ContextManager.to_dict (m : ContextManager) : ContextSnapshot :=
  ⟨m.global_vars, m.scenario_vars, m.step_vars⟩

/- ===== Rendering: Python str() / repr() for engine values ===== -/

/- Decimal rendering of a float whose rational value terminates in
base 10 (every value a claim touches); other values fall back to a
fraction rendering.  No claim depends on this textual form. -/
def ratDecimalRepr (q : Rat) : List Char :=
  match (List.range 18).find? (fun k => (q * (10 : Rat) ^ k).den = 1) with
  | some k =>
      let m := (q * (10 : Rat) ^ k).num
      let sign : List Char := if m < 0 then ['-'] else []
      let digits := (toString m.natAbs).data
      let digits :=
        if digits.length ≤ k then (List.replicate (k + 1 - digits.length) '0') ++ digits
        else digits
      let intPart := digits.take (digits.length - k)
      let frac := digits.drop (digits.length - k)
      sign ++ intPart ++ (if k = 0 then ".0".data else '.' :: frac)
  | Option.none => (toString q.num).data ++ '/' :: (toString q.den).data

mutual

/- repr(v): the form Python uses for values nested inside containers.
String escaping inside repr is not modeled (no claim prints a string
containing a quote). -/
def pyRepr : Value → List Char
  | .none => "None".data
  | .bool true => "True".data
  | .bool false => "False".data
  | .int n => (toString n).data
  | .float q => ratDecimalRepr q
  | .str s => quoteS :: s.data ++ [quoteS]
  | .list xs => '[' :: pyReprList xs ++ [']']
  | .dict kvs => braceL :: pyReprDict kvs ++ [braceR]

def pyReprList : VList → List Char
  | .nil => []
  | .cons x .nil => pyRepr x
  | .cons x xs => pyRepr x ++ ", ".data ++ pyReprList xs

def pyReprDict : VDict → List Char
  | .nil => []
  | .cons k v .nil => (quoteS :: k.data ++ [quoteS]) ++ ": ".data ++ pyRepr v
  | .cons k v kvs =>
      (quoteS :: k.data ++ [quoteS]) ++ ": ".data ++ pyRepr v ++ ", ".data ++ pyReprDict kvs

end

/- str(v): strings render as themselves, containers via repr. -/
def pyStr : Value → List Char
  | .str s => s.data
  | v => pyRepr v

/- ===== Python comparison semantics used by the evaluator ===== -/

/- bool is an int subclass in Python: True == 1, numeric kinds compare
by value. -/
def ratOfNum : Value → Option Rat
  | .bool b => some (if b then 1 else 0)
  | .int n => some (n : Rat)
  | .float q => some q
  | _ => Option.none

mutual

/- Python ==: numeric cross-kind equality, structural for containers,
False on mismatched kinds, never raising. -/
def pyEq : Value → Value → Bool
  | a, b =>
      match ratOfNum a, ratOfNum b with
      | some x, some y => x == y
      | _, _ =>
          match a, b with
          | .none, .none => true
          | .str s, .str t => s == t
          | .list xs, .list ys => pyEqList xs ys
          | .dict xs, .dict ys => VDict.keys xs == VDict.keys ys && pyEqDict xs ys
          | _, _ => false

def pyEqList : VList → VList → Bool
  | .nil, .nil => true
  | .cons x xs, .cons y ys => pyEq x y && pyEqList xs ys
  | _, _ => false

def pyEqDict : VDict → VDict → Bool
  | .nil, _ => true
  | .cons k v rest, b =>
      (match VDict.get b k with
       | some w => pyEq v w
       | Option.none => false) && pyEqDict rest b

end

/- Lexicographic string comparison on code points. -/
def strLt : List Char → List Char → Bool
  | [], [] => false
  | [], _ :: _ => true
  | _ :: _, [] => false
  | a :: as, b :: bs => a.toNat < b.toNat || (a = b && strLt as bs)

mutual

/- Python <: numbers by value, strings and lists lexicographically,
anything else raises TypeError. -/
def pyLt : Value → Value → Except String Bool
  | a, b =>
      match ratOfNum a, ratOfNum b with
      | some x, some y => .ok (decide (x < y))
      | _, _ =>
          match a, b with
          | .str s, .str t => .ok (strLt s.data t.data)
          | .list xs, .list ys => pyLtList xs ys
          | _, _ => .error "TypeError"

def pyLtList : VList → VList → Except String Bool
  | .nil, .nil => .ok false
  | .nil, .cons _ _ => .ok true
  | .cons _ _, .nil => .ok false
  | .cons x xs, .cons y ys => if pyEq x y then pyLtList xs ys else pyLt x y

end

def pyLe (a b : Value) : Except String Bool :=
  match pyLt a b with
  | .ok r => .ok (r || pyEq a b)
  | .error e => .error e

def pyGt (a b : Value) : Except String Bool := pyLt b a

def pyGe (a b : Value) : Except String Bool := pyLe b a

def VList.pyContains (a : Value) : VList → Bool
  | .nil => false
  | .cons y ys => pyEq a y || VList.pyContains a ys

/- Python membership a in b: substring test for strings, element test
for lists, key test for dicts (keys here are strings; an unhashable
operand raises TypeError), TypeError otherwise. -/
def pyIn (a b : Value) : Except String Bool :=
  match b with
  | .str t =>
      match a with
      | .str s => .ok (seqContains s.data t.data)
      | _ => .error "TypeError"
  | .list ys => .ok (ys.pyContains a)
  | .dict kvs =>
      match a with
      | .list _ => .error "TypeError"
      | .dict _ => .error "TypeError"
      | .str s => .ok ((VDict.keys kvs).contains s)
      | _ => .ok false
  | _ => .error "TypeError"

def opEq (a b : Value) : Except String Bool := .ok (pyEq a b)

def opNe (a b : Value) : Except String Bool := .ok (!pyEq a b)

def opNotContains (a b : Value) : Except String Bool :=
  match pyIn a b with
  | .ok r => .ok (!r)
  | .error e => .error e

/- ConditionEvaluator.OPERATORS in its dict insertion order. -/
def ceOperators : List (List Char × (Value → Value → Except String Bool)) :=
  [("==".data, opEq), ("!=".data, opNe), (">".data, pyGt), (">=".data, pyGe),
   ("<".data, pyLt), ("<=".data, pyLe), ("in".data, pyIn), ("not in".data, opNotContains)]

/- ===== Template resolution (context_manager.py, resolve and the
helpers it drives) ===== -/

/- The keys of ContextManager._builtin_functions. -/
def builtinNames : List String :=
  ["timestamp", "uuid", "random_string", "random_int", "date", "md5"]

/- Oracle for the calls of the six impure builtin functions (time,
uuid, random, date, md5): given the function name and the parsed
arguments it returns the call result, or the exception the call
raises (wrong arity, bad argument type).  Every theorem quantifies
over it; no claim constrains what a builtin returns. -/
def BuiltinOracle := String → List Value → Except String Value

/- One argument of a ${func(...)} call (context_manager.py lines
157-164): quoted with single quotes gives the inner string, all-digits
gives an int, anything else passes through as the raw string. -/
def cmParseArg (arg0 : List Char) : Value :=
  let arg := pyStrip arg0
  if seqStartsWith [quoteS] arg && seqEndsWith [quoteS] arg then
    .str (String.mk ((arg.drop 1).dropLast))
  else if pyIsDigit arg then .int (Int.ofNat (digitsToNat arg 0))
  else .str (String.mk arg)

/- ContextManager._evaluate_expression: a function call name(args)
dispatches to a builtin or raises ValueError for an unknown name;
anything else is a plain variable reference looked up with default
None. -/
def cmEvaluateExpression (m : ContextManager) (bs : BuiltinOracle) (expr0 : String) :
    Except String Value :=
  let expr := pyStrip expr0.data
  match (if seqEndsWith [')'] expr then seqIdxOf '(' expr else Option.none) with
  | some i =>
      let func_name := String.mk (expr.take i)
      let args_str := pyStrip ((expr.drop (i + 1)).dropLast)
      let args := if args_str.isEmpty then [] else (seqSplitAll ',' args_str).map cmParseArg
      if builtinNames.contains func_name then bs func_name args
      else .error ("Unknown function: " ++ func_name)
  | Option.none => .ok (m.get (String.mk expr) Value.none)

/- The regex [^}]+ closed by a brace: the marker body after an opening
$-brace, with the text following the closing brace. -/
def markerBody (s : List Char) : Option (List Char × List Char) :=
  match s.span (fun c => c ≠ braceR) with
  | (content, rest) =>
      match rest with
      | [] => Option.none
      | _ :: after => if content.isEmpty then Option.none else some (content, after)

def markerAt (rest : List Char) : Option (List Char × List Char) :=
  match rest with
  | c2 :: rest2 => if c2 = braceL then markerBody rest2 else Option.none
  | [] => Option.none

/- re.sub over the marker pattern with the effectful replacer of
_resolve_string: left-to-right scan, a non-match advances one
character, a raised exception propagates.  Fuel bounds the scan; the
input length always suffices because every step consumes at least one
character. -/
def subMarkersFuel (f : List Char → Except String Value) :
    Nat → List Char → Except String (List Char)
  | 0, s => .ok s
  | _ + 1, [] => .ok []
  | fuel + 1, c :: rest =>
      match (if c = '$' then markerAt rest else Option.none) with
      | some (content, after) =>
          match f content with
          | .error e => .error e
          | .ok v =>
              let repl := if v = Value.none then [] else pyStr v
              (subMarkersFuel f fuel after).map (fun tail => repl ++ tail)
      | Option.none =>
          (subMarkersFuel f fuel rest).map (fun tail => c :: tail)

/- Python str.count of the marker opener (non-overlapping). -/
def countMarkers : List Char → Nat
  | c :: c2 :: rest =>
      if c = '$' && c2 = braceL then countMarkers rest + 1
      else countMarkers (c2 :: rest)
  | _ => 0

/- ContextManager._resolve_string: a string that is exactly one
${...} marker keeps the native type of the resolved value; otherwise
every marker is replaced by str(value) (empty for None) inside the
literal text. -/
def cmResolveString (m : ContextManager) (bs : BuiltinOracle) (text : String) :
    Except String Value :=
  let cs := text.data
  if seqStartsWith ['$', braceL] cs && seqEndsWith [braceR] cs && countMarkers cs == 1 then
    cmEvaluateExpression m bs (String.mk ((cs.drop 2).dropLast))
  else
    match subMarkersFuel (fun content => cmEvaluateExpression m bs (String.mk content))
        cs.length cs with
    | .ok out => .ok (.str (String.mk out))
    | .error e => .error e

mutual

/- ContextManager.resolve: strings are scanned for markers, dicts and
lists are rebuilt with resolved members, any other value is returned
unchanged. -/
def cmResolve (m : ContextManager) (bs : BuiltinOracle) : Value → Except String Value
  | .str s => cmResolveString m bs s
  | .dict kvs =>
      match cmResolveDict m bs kvs with
      | .ok kvs2 => .ok (.dict kvs2)
      | .error e => .error e
  | .list xs =>
      match cmResolveList m bs xs with
      | .ok xs2 => .ok (.list xs2)
      | .error e => .error e
  | v => .ok v

def cmResolveList (m : ContextManager) (bs : BuiltinOracle) : VList → Except String VList
  | .nil => .ok .nil
  | .cons x xs =>
      match cmResolve m bs x with
      | .error e => .error e
      | .ok x2 =>
          match cmResolveList m bs xs with
          | .ok xs2 => .ok (.cons x2 xs2)
          | .error e => .error e

def cmResolveDict (m : ContextManager) (bs : BuiltinOracle) : VDict → Except String VDict
  | .nil => .ok .nil
  | .cons k v kvs =>
      match cmResolve m bs v with
      | .error e => .error e
      | .ok v2 =>
          match cmResolveDict m bs kvs with
          | .ok kvs2 => .ok (.cons k v2 kvs2)
          | .error e => .error e

end

/- ===== ConditionEvaluator (src/scenario/condition_evaluator.py) ===== -/

/- _parse_value: keyword literals, quoted strings, numbers, a
bracketed list handed to literal eval, else the raw string.  The
unrestricted eval used for the bracket branch is an oracle
(Option.none = the eval raised and the branch falls through). -/
def ceParseValue (evalU : String → Option Value) (value_str : List Char) : Value :=
  let v := pyStrip value_str
  let low := pyLower v
  if low = "none".data || low = "null".data then .none
  else if low = "true".data then .bool true
  else if low = "false".data then .bool false
  else if (seqStartsWith [quoteS] v && seqEndsWith [quoteS] v && !v.isEmpty)
      || (seqStartsWith [quoteD] v && seqEndsWith [quoteD] v && !v.isEmpty) then
    .str (String.mk ((v.drop 1).dropLast))
  else
    match (if seqContains ['.'] v then (pyFloat v).map Value.float
           else (pyInt v).map Value.int) with
    | some n => n
    | Option.none =>
        if seqStartsWith ['['] v && seqEndsWith [']'] v then
          match evalU (String.mk v) with
          | some w => w
          | Option.none => .str (String.mk v)
        else .str (String.mk v)

/- The operator scan of _manual_evaluate: first operator (in table
order) occurring anywhere in the expression wins; the expression is
split at its first occurrence. -/
def ceFindOperator :
    List (List Char × (Value → Value → Except String Bool)) → List Char →
      Option ((Value → Value → Except String Bool) × List Char × List Char)
  | [], _ => Option.none
  | (opStr, opf) :: rest, expr =>
      if seqContains opStr expr then
        match seqSplitFirst opStr expr with
        | some (l, r) => some (opf, l, r)
        | Option.none => ceFindOperator rest expr
      else ceFindOperator rest expr

/- _manual_evaluate: split at the first operator found and apply it
(any exception there gives False), else interpret the whole expression
as a boolean literal, else False. -/
def ceManualEvaluate (evalU : String → Option Value) (expr0 : List Char) : Bool :=
  let expr := pyStrip expr0
  match ceFindOperator ceOperators expr with
  | some (opf, l, r) =>
      match opf (ceParseValue evalU (pyStrip l)) (ceParseValue evalU (pyStrip r)) with
      | .ok b => b
      | .error _ => false
  | Option.none =>
      let low := pyLower expr
      if low = "true".data || low = "1".data then true
      else if low = "false".data || low = "0".data || low = "none".data
          || low = "null".data then false
      else false

/- _evaluate_expression: rewrite the logical connectives, try the
sandboxed eval (an oracle over the rewritten text: it reports the
value of the expression in the restricted environment, or the
exception eval raises there), and on any exception fall back to the
manual parser.  A non-string resolved expression raises
AttributeError at the .replace call before the try block. -/
def ceEvaluateExpression (pyEval : String → Except String Value)
    (evalU : String → Option Value) (resolved : Value) : Except String Bool :=
  match resolved with
  | .str s =>
      let e1 := seqReplace " and ".data " and_ ".data s.data
      let e2 := seqReplace " or ".data " or_ ".data e1
      let e3 := seqReplace " not ".data " not_ ".data e2
      match pyEval (String.mk e3) with
      | .ok r => .ok (pyTruthy r)
      | .error _ => .ok (ceManualEvaluate evalU e3)
  | _ => .error "AttributeError"

/- index into a Python list, negative indices counting from the end. -/
def VList.getNat : VList → Nat → Option Value
  | .nil, _ => Option.none
  | .cons x _, 0 => some x
  | .cons _ xs, n + 1 => VList.getNat xs n

def vlistIndex (xs : VList) (i : Int) : Option Value :=
  let n : Int := Int.ofNat xs.length
  let j := if i < 0 then i + n else i
  if 0 ≤ j && j < n then xs.getNat j.toNat else Option.none

/- _get_nested_value loop: dict lookup / list index per part, any miss
or None hit gives None. -/
def ceNestedLoop : Value → List (List Char) → Value
  | cur, [] => cur
  | cur, part :: rest =>
      let nxt : Option Value :=
        match cur with
        | .dict kvs => some (kvs.getD (String.mk part))
        | .list xs =>
            match pyInt part with
            | some i => vlistIndex xs i
            | Option.none => Option.none
        | _ => Option.none
      match nxt with
      | Option.none => Value.none
      | some v => if v = Value.none then Value.none else ceNestedLoop v rest

/- _get_nested_value: brackets are rewritten to dots and the dotted
path is walked. -/
def ceGetNestedValue (data : Value) (path : List Char) : Value :=
  if path.isEmpty then data
  else
    ceNestedLoop data
      (seqSplitAll '.' (seqReplace [']'] [] (seqReplace ['['] ['.'] path)))

def isPathChar (c : Char) : Bool :=
  c.isAlpha || isPyDigit c || c = '_' || c = '.' || c = '[' || c = ']'

/- re.sub over the response-reference pattern: the literal text
response-dot followed by one or more path characters, replaced by a
quoted string or the str() rendering of the reached value. -/
def subRespFuel (response : Value) : Nat → List Char → List Char
  | 0, s => s
  | _ + 1, [] => []
  | fuel + 1, hay@(c :: rest) =>
      if seqStartsWith "response.".data hay then
        let tail := hay.drop 9
        let path := tail.takeWhile isPathChar
        if path.isEmpty then c :: subRespFuel response fuel rest
        else
          let value := ceGetNestedValue response path
          let repl :=
            match value with
            | .str s => quoteS :: s.data ++ [quoteS]
            | v => pyStr v
          repl ++ subRespFuel response fuel (tail.drop path.length)
      else c :: subRespFuel response fuel rest

/- _resolve_response_refs: a falsy response leaves the expression
unchanged. -/
def ceResolveResponseRefs (expr : List Char) (response : Value) : List Char :=
  if !pyTruthy response then expr
  else subRespFuel response expr.length expr

/- _resolve_variables: substitute response references when the text
mentions them, then hand the string to ContextManager.resolve. -/
def ceResolveVariables (m : ContextManager) (bs : BuiltinOracle) (expr : String)
    (response : Value) : Except String Value :=
  let e := if seqContains "response.".data expr.data
    then ceResolveResponseRefs expr.data response
    else expr.data
  cmResolve m bs (.str (String.mk e))

/- ConditionEvaluator.evaluate: resolve variable references, then
evaluate the resulting expression. -/
def ceEvaluate (pyEval : String → Except String Value) (evalU : String → Option Value)
    (m : ContextManager) (bs : BuiltinOracle) (expr : String) (response : Value) :
    Except String Bool :=
  match ceResolveVariables m bs expr response with
  | .error e => .error e
  | .ok v => ceEvaluateExpression pyEval evalU v

/- ===== VariableExtractor (src/scenario/variable_extractor.py) ===== -/

/- Node count of a value; used only to supply recursion fuel. -/
mutual

def vSize : Value → Nat
  | .list xs => vSizeL xs + 1
  | .dict kvs => vSizeD kvs + 1
  | _ => 1

def vSizeL : VList → Nat
  | .nil => 0
  | .cons x xs => vSize x + vSizeL xs

def vSizeD : VDict → Nat
  | .nil => 0
  | .cons _ v kvs => vSize v + vSizeD kvs

end

mutual

/- _traverse_path: one dotted segment at a time, with [index] and [*]
handling.  A first segment holding an opening bracket but no closing
one raises ValueError (str.index).  The fuel argument only bounds the
recursion nesting; remaining path length plus node count of the data
always suffices (every call either shortens the remaining path or
steps to a later or deeper value). -/
def veTraversePath : Nat → Value → List Char → Except String Value
  | 0, _, _ => .error "RecursionError"
  | fuel + 1, data, path =>
      if path.isEmpty then .ok data
      else
        let fr :=
          match seqSplitFirst ['.'] path with
          | some p => p
          | Option.none => (path, ([] : List Char))
        let first := fr.1
        let rest := fr.2
        if seqContains ['['] first then
          match seqIdxOf '[' first with
          | Option.none => .error "ValueError"
          | some i =>
              match seqIdxOf ']' first with
              | Option.none => .error "ValueError"
              | some j =>
                  let key := String.mk (first.take i)
                  let index_part := (first.drop (i + 1)).take (j - (i + 1))
                  let arr :=
                    match data with
                    | .dict kvs => kvs.getD key
                    | _ => data
                  match arr with
                  | .list items =>
                      if index_part = ['*'] then
                        if rest.isEmpty then .ok (.list items)
                        else
                          match veTraverseStar fuel items rest with
                          | .ok results => .ok (.list results)
                          | .error e => .error e
                      else
                        match pyInt index_part with
                        | Option.none => .ok Value.none
                        | some idx =>
                            match vlistIndex items idx with
                            | Option.none => .ok Value.none
                            | some item =>
                                if rest.isEmpty then .ok item
                                else veTraversePath fuel item rest
                  | _ => .ok Value.none
        else
          match data with
          | .dict kvs =>
              let value := kvs.getD (String.mk first)
              if rest.isEmpty then .ok value else veTraversePath fuel value rest
          | _ => .ok Value.none

/- the [*] list comprehension: traverse every element against the
remaining path, collecting results and propagating exceptions. -/
def veTraverseStar : Nat → VList → List Char → Except String VList
  | 0, _, _ => .error "RecursionError"
  | _ + 1, .nil, _ => .ok .nil
  | fuel + 1, .cons it its, rest =>
      match veTraversePath fuel it rest with
      | .error e => .error e
      | .ok v =>
          match veTraverseStar fuel its rest with
          | .ok vs => .ok (.cons v vs)
          | .error e => .error e

end

/- extract_jsonpath: only dicts and lists are queried; the leading
dollar prefix is dropped; KeyError/IndexError/TypeError fall back to
None while other exceptions (ValueError from a malformed bracket)
propagate. -/
def veExtractJsonpath (data : Value) (path : String) : Except String Value :=
  match data with
  | .dict _ | .list _ =>
      let p0 := path.data
      let p :=
        if seqStartsWith ['$', '.'] p0 then p0.drop 2
        else if seqStartsWith ['$'] p0 then p0.drop 1
        else p0
      if p.isEmpty then .ok data
      else
        match veTraversePath (p.length + vSize data + 1) data p with
        | .ok v => .ok v
        | .error e =>
            if e = "KeyError" || e = "IndexError" || e = "TypeError" then .ok Value.none
            else .error e
  | _ => .ok Value.none

/- extract_header: case-insensitive scan over the header items,
None when absent. -/
def veExtractHeader : VDict → String → Value
  | .nil, _ => .none
  | .cons k v rest, name =>
      if pyLower k.data = pyLower name.data then v else veExtractHeader rest name

/- re.search of name=([^;]+): first position where the literal name
and equals sign match with a nonempty run of non-semicolon characters
after them (cookie names are taken literally; no claim uses regex
metacharacters in one). -/
def cookieSearch (name : List Char) : List Char → Option (List Char)
  | [] => Option.none
  | hay@(_ :: rest) =>
      if seqStartsWith (name ++ ['=']) hay then
        let v := (hay.drop (name.length + 1)).takeWhile (fun c => c ≠ ';')
        if v.isEmpty then cookieSearch name rest else some v
      else cookieSearch name rest

/- extract_cookie: find the Set-Cookie header and parse one cookie out
of it. -/
def veExtractCookie (headers : VDict) (name : String) : Except String Value :=
  let set_cookie := veExtractHeader headers "Set-Cookie"
  if !pyTruthy set_cookie then .ok Value.none
  else
    match set_cookie with
    | .str s =>
        match cookieSearch name.data s.data with
        | some v => .ok (.str (String.mk v))
        | Option.none => .ok Value.none
    | _ => .error "TypeError"

/- json.dumps with the default separators (string escaping is not
modeled; the result only feeds the regex oracle and no claim reads
it). -/
mutual

def jsonDumps : Value → List Char
  | .none => "null".data
  | .bool true => "true".data
  | .bool false => "false".data
  | .int n => (toString n).data
  | .float q => ratDecimalRepr q
  | .str s => quoteD :: s.data ++ [quoteD]
  | .list xs => '[' :: jsonDumpsList xs ++ [']']
  | .dict kvs => braceL :: jsonDumpsDict kvs ++ [braceR]

def jsonDumpsList : VList → List Char
  | .nil => []
  | .cons x .nil => jsonDumps x
  | .cons x xs => jsonDumps x ++ ", ".data ++ jsonDumpsList xs

def jsonDumpsDict : VDict → List Char
  | .nil => []
  | .cons k v .nil => (quoteD :: k.data ++ [quoteD]) ++ ": ".data ++ jsonDumps v
  | .cons k v kvs =>
      (quoteD :: k.data ++ [quoteD]) ++ ": ".data ++ jsonDumps v ++ ", ".data ++ jsonDumpsDict kvs

end

/- One entry of the extract configuration list: a dict with the keys
the source reads; a missing key is Option.none, group defaults to 0
as in config.get. -/
structure ExtractRule where
  name : Option String
  path : Option String
  header : Option String
  cookie : Option String
  regex : Option String
  group : Nat
  deriving DecidableEq

def mkPathRule (name path : String) : ExtractRule :=
  ⟨some name, some path, Option.none, Option.none, Option.none, 0⟩

/- The oracle for re.search over a dynamic pattern in extract's regex
branch: result is the matched group, Option.none for no match, and an
error models re.error or a bad group index.  No claim constrains
it. -/
def RegexOracle := String → String → Nat → Except String (Option String)

/- A headers argument: Option.none is the Python None default. -/
def hdrTruthy : Option VDict → Bool
  | Option.none => false
  | some .nil => false
  | some (.cons _ _ _) => true

/- The value produced by the branch chain of extract for one rule. -/
def veRuleValue (rx : RegexOracle) (response : Value) (headers : Option VDict)
    (rule : ExtractRule) : Except String Value :=
  match rule.path with
  | some p => veExtractJsonpath response p
  | Option.none =>
      match (if hdrTruthy headers then rule.header else Option.none) with
      | some h => .ok (veExtractHeader ((headers.getD .nil)) h)
      | Option.none =>
          match (if hdrTruthy headers then rule.cookie else Option.none) with
          | some ck => veExtractCookie (headers.getD .nil) ck
          | Option.none =>
              match rule.regex with
              | some pat =>
                  let text :=
                    match response with
                    | .dict _ => jsonDumps response
                    | .list _ => jsonDumps response
                    | v => pyStr v
                  match rx pat (String.mk text) rule.group with
                  | .ok (some s) => .ok (.str s)
                  | .ok Option.none => .ok Value.none
                  | .error e => .error e
              | Option.none => .ok Value.none

/- VariableExtractor.extract: walk the rules, skip falsy names, store
non-None values under the rule name. -/
def veExtractLoop (rx : RegexOracle) (response : Value) (headers : Option VDict) :
    List ExtractRule → VDict → Except String VDict
  | [], acc => .ok acc
  | rule :: rest, acc =>
      match rule.name with
      | Option.none => veExtractLoop rx response headers rest acc
      | some name =>
          if name.isEmpty then veExtractLoop rx response headers rest acc
          else
            match veRuleValue rx response headers rule with
            | .error e => .error e
            | .ok v =>
                if v = Value.none then veExtractLoop rx response headers rest acc
                else veExtractLoop rx response headers rest (acc.set name v)

def veExtract (rx : RegexOracle) (response : Value) (cfg : List ExtractRule)
    (headers : Option VDict) : Except String VDict :=
  veExtractLoop rx response headers cfg .nil

/- ===== ScenarioExecutor (src/scenario/scenario_executor.py) ===== -/

/- The step fields execute reads directly; the request/extract/assert
and branch payloads live behind the phase-runner abstraction below
and are not needed by any claim about execute itself. -/
structure StepConfig where
  name : String
  api : String
  deriving DecidableEq

structure ScenarioConfig where
  name : String
  description : String
  config : VDict
  setup : List StepConfig
  steps : List StepConfig
  teardown : List StepConfig
  deriving DecidableEq

/- The StepResult fields read by execute and _update_stats (timing,
request and response captures are irrelevant to every claim). -/
structure StepResult where
  name : String
  api : String
  passed : Bool
  skipped : Bool
  errors : List String
  deriving DecidableEq

structure ScenarioResult where
  name : String
  description : String
  passed : Bool
  total_steps : Nat
  passed_steps : Nat
  failed_steps : Nat
  skipped_steps : Nat
  setup_results : List StepResult
  step_results : List StepResult
  teardown_results : List StepResult
  errors : List String
  deriving DecidableEq

inductive Phase where
  | setup
  | mainSteps
  | teardown
  deriving DecidableEq

/- A phase runner abstracts one call of _execute_steps together with
the banner print that precedes it inside the try block: a normal
outcome is the list of step results (failed steps included, since
_execute_step catches every per-step exception), an error is a
scenario-level exception escaping the phase (for instance an OSError
out of print, the very situation the teardown-invariance wording of
the specification describes). -/
def PhaseRunner := Phase → List StepConfig → Except String (List StepResult)

def seInitResult (sc : ScenarioConfig) : ScenarioResult :=
  ⟨sc.name, sc.description, true,
    sc.setup.length + sc.steps.length + sc.teardown.length,
    0, 0, 0, [], [], [], []⟩

/- the per-result branch of _update_stats -/
def seTally (r : ScenarioResult) (sr : StepResult) : ScenarioResult :=
  if sr.skipped then { r with skipped_steps := r.skipped_steps + 1 }
  else if sr.passed then { r with passed_steps := r.passed_steps + 1 }
  else { r with failed_steps := r.failed_steps + 1 }

/- _update_stats -/
def seUpdateStats (r : ScenarioResult) (rs : List StepResult) : ScenarioResult :=
  rs.foldl seTally r

/- the except clause of execute: record the scenario-level error. -/
def seCatch (r : ScenarioResult) (e : String) : ScenarioResult :=
  { r with passed := false, errors := r.errors ++ ["场景执行异常: " ++ e] }

/- One guarded phase of the try block: an empty phase list skips the
call, a raised exception jumps to the except clause (dropping the
continuation, exactly as control flow leaves the try block), a normal
return stores the results, updates the statistics and continues. -/
def sePhase (rp : PhaseRunner) (ph : Phase) (steps : List StepConfig)
    (assign : ScenarioResult → List StepResult → ScenarioResult)
    (r : ScenarioResult) (k : ScenarioResult → ScenarioResult) : ScenarioResult :=
  if steps.isEmpty then k r
  else
    match rp ph steps with
    | .error e => seCatch r e
    | .ok rs => k (seUpdateStats (assign r rs) rs)

/- ScenarioExecutor.execute, lines 110-143: the three phases inside
one try block, then the final pass verdict (the timing field and the
context snapshot are modeled separately and carry no control flow). -/
def seExecute (rp : PhaseRunner) (sc : ScenarioConfig) : ScenarioResult :=
  let r := seInitResult sc
  let r :=
    sePhase rp .setup sc.setup (fun r rs => { r with setup_results := rs }) r (fun r =>
      sePhase rp .mainSteps sc.steps (fun r rs => { r with step_results := rs }) r (fun r =>
        sePhase rp .teardown sc.teardown (fun r rs => { r with teardown_results := rs }) r id))
  { r with passed := r.failed_steps == 0 && r.errors.isEmpty }

/- _init_global_config: seed base_url when the resolved value is
truthy, take the timeout field for the executor itself, then copy
every non-reserved config key into global scope. -/
def seReserved (k : String) : Bool :=
  k = "base_url" || k = "timeout" || k = "retry"

def seSeedGlobals : VDict → ContextManager → ContextManager
  | .nil, m => m
  | .cons k v rest, m =>
      seSeedGlobals rest (if seReserved k then m else m.set k v .global)

def seInitGlobalConfig (config : VDict) (default_base_url : Value)
    (self_timeout : Value) (m : ContextManager) : ContextManager × Value :=
  let base_url := (config.get "base_url").getD default_base_url
  let m := if pyTruthy base_url then m.set "base_url" base_url .global else m
  let timeout :=
    match config.get "timeout" with
    | some t => t
    | Option.none => self_timeout
  (seSeedGlobals config m, timeout)

/- ===== Reference model of Python object identity =====

The two frame-effect claims (the snapshot of to_dict, the
non-mutation of resolve) are about object identity and in-place
mutation, which the pure value model above cannot express.  Here
mutable Python objects (lists and dicts) live on an explicit heap:
an address indexes the heap, scalar values are immutable and inline,
allocation appends a cell, in-place mutation overwrites a cell. -/

inductive HVal where
  | hnone
  | hbool (b : Bool)
  | hint (n : Int)
  | hfloat (q : Rat)
  | hstr (s : String)
  | href (a : Nat)
  deriving DecidableEq

inductive HCell where
  | clist (xs : List HVal)
  | cdict (kvs : List (String × HVal))
  deriving DecidableEq

abbrev Heap := List HCell

/- Read the value tree reachable from a heap value; the fuel only
bounds cyclic structures and every concrete use below supplies
enough. -/
def hDenote : Nat → Heap → HVal → Value
  | 0, _, _ => Value.none
  | fuel + 1, h, v =>
      match v with
      | .hnone => .none
      | .hbool b => .bool b
      | .hint n => .int n
      | .hfloat q => .float q
      | .hstr s => .str s
      | .href a =>
          match h[a]? with
          | some (.clist xs) => Value.listOf (xs.map (hDenote fuel h))
          | some (.cdict kvs) => Value.dictOf (kvs.map (fun kv => (kv.1, hDenote fuel h kv.2)))
          | Option.none => Value.none

/- replace-or-append on a dict cell content (dict item assignment). -/
def hdSet : List (String × HVal) → String → HVal → List (String × HVal)
  | [], key, v => [(key, v)]
  | (k, w) :: kvs, key, v =>
      if k = key then (key, v) :: kvs else (k, w) :: hdSet kvs key v

/- The ContextManager seen through references: the three scope
attributes hold addresses of dict cells. -/
structure CMRef where
  gaddr : Nat
  saddr : Nat
  staddr : Nat
  deriving DecidableEq

def scopeAddr (m : CMRef) : Scope → Nat
  | .global => m.gaddr
  | .scenario => m.saddr
  | .step => m.staddr

def kvsAt (h : Heap) (a : Nat) : List (String × HVal) :=
  match h[a]? with
  | some (.cdict kvs) => kvs
  | _ => []

/- set in the reference model: an in-place write into the scope dict
cell (Python: self.global_vars[name] = value). -/
def cmSetRef (h : Heap) (m : CMRef) (name : String) (v : HVal) (sc : Scope) : Heap :=
  let a := scopeAddr m sc
  match h[a]? with
  | some (.cdict kvs) => h.set a (.cdict (hdSet kvs name v))
  | _ => h

/- clear_step rebinds the attribute to a freshly allocated empty dict
(Python: self.step_vars = a new dict); the old cell is untouched. -/
def cmClearStepRef (h : Heap) (m : CMRef) : Heap × CMRef :=
  (h ++ [.cdict []], { m with staddr := h.length })

/- to_dict in the reference model: dict.copy() allocates a fresh cell
per scope holding the same bindings (a shallow copy: the bound values,
including references, are shared). -/
structure SnapshotRef where
  ga : Nat
  sa : Nat
  sta : Nat
  deriving DecidableEq

def cmToDictRef (h : Heap) (m : CMRef) : Heap × SnapshotRef :=
  (h ++ [.cdict (kvsAt h m.gaddr), .cdict (kvsAt h m.saddr), .cdict (kvsAt h m.staddr)],
   ⟨h.length, h.length + 1, h.length + 2⟩)

/- ===== resolve in the reference model (for the non-mutation claim)

The string case of resolve reads the context and calls builtins but
never writes into an existing object, so it is abstracted by an
oracle from the text to a resolved heap value; the dict and list
cases rebuild fresh containers after resolving the members.  The fuel
only bounds cyclic inputs (where Python itself would hit its
recursion limit). -/

def StrResolver := String → Except String HVal

mutual

def hResolve (f : StrResolver) : Nat → Heap → HVal → Heap × Except String HVal
  | 0, h, _ => (h, .error "RecursionError")
  | fuel + 1, h, v =>
      match v with
      | .hstr s => (h, f s)
      | .href a =>
          match h[a]? with
          | some (.cdict kvs) =>
              match hResolveKVs f fuel h kvs with
              | (h2, .ok kvs2) => (h2 ++ [.cdict kvs2], .ok (.href h2.length))
              | (h2, .error e) => (h2, .error e)
          | some (.clist xs) =>
              match hResolveItems f fuel h xs with
              | (h2, .ok xs2) => (h2 ++ [.clist xs2], .ok (.href h2.length))
              | (h2, .error e) => (h2, .error e)
          | Option.none => (h, .ok v)
      | w => (h, .ok w)

def hResolveItems (f : StrResolver) : Nat → Heap → List HVal → Heap × Except String (List HVal)
  | 0, h, _ => (h, .error "RecursionError")
  | _ + 1, h, [] => (h, .ok [])
  | fuel + 1, h, x :: xs =>
      match hResolve f fuel h x with
      | (h2, .ok x2) =>
          match hResolveItems f fuel h2 xs with
          | (h3, .ok xs2) => (h3, .ok (x2 :: xs2))
          | (h3, .error e) => (h3, .error e)
      | (h2, .error e) => (h2, .error e)

def hResolveKVs (f : StrResolver) :
    Nat → Heap → List (String × HVal) → Heap × Except String (List (String × HVal))
  | 0, h, _ => (h, .error "RecursionError")
  | _ + 1, h, [] => (h, .ok [])
  | fuel + 1, h, (k, v) :: kvs =>
      match hResolve f fuel h v with
      | (h2, .ok v2) =>
          match hResolveKVs f fuel h2 kvs with
          | (h3, .ok kvs2) => (h3, .ok ((k, v2) :: kvs2))
          | (h3, .error e) => (h3, .error e)
      | (h2, .error e) => (h2, .error e)

end

/- h2 extends h: same length or longer, and every existing cell is
unchanged. -/
def heapExtends (h h2 : Heap) : Prop :=
  h.length ≤ h2.length ∧ ∀ a, a < h.length → h2[a]? = h[a]?

/- ===== Concrete fixtures used by the theorems below ===== -/

/- Sandbox eval over an expression whose names are not bound in the
restricted environment raises (NameError, or SyntaxError for the
rewritten connective forms); this oracle models eval failing on every
input handed to it. -/
def oracleEvalErr : String → Except String Value := fun _ => .error "NameError"

/- Literal eval of a bracketed list raising on every input (no claim
reaches that branch). -/
def oracleEvalU : String → Option Value := fun _ => Option.none

/- Builtin calls never reached by any claim input. -/
def oracleBuiltins : BuiltinOracle := fun _ _ => .error "RuntimeError"

/- A single-quote character as a one-character string. -/
def sqStr : String := String.mk [quoteS]

/- Context of the condition-evaluator claims: age=25, balance=150,
roles=[admin, user], set in scenario scope as the module self-test
does. -/
def ctxCond : ContextManager :=
  ((ContextManager.empty.set "age" (.int 25) .scenario).set "balance"
      (.int 150) .scenario).set "roles"
    (Value.listOf [.str "admin", .str "user"]) .scenario

def exprAndStr : String := "age > 18 and balance >= 100"

def exprInStr : String := sqStr ++ "admin" ++ sqStr ++ " in roles"

/- The whole-marker and embedded-marker templates of the template
round-trip claim. -/
def tplWhole : String := "$\x7bx\x7d"

def tplEmbed : String := "n=$\x7bx\x7d"

/- A marker calling a function that is not a builtin. -/
def tplUnknownFn : String := "$\x7bfoo()\x7d"

/- An embedded marker referencing a variable bound nowhere. -/
def tplMissingVar : String := "val=$\x7bmissing\x7d"

/- An expression with no operator, no marker and no boolean literal. -/
def exprMalformed : String := "@#%@"

/- The response body of the path-extraction claim. -/
def respItems : Value :=
  .dictOf [("data", .dictOf [("items",
    Value.listOf [.dictOf [("id", .int 1)], .dictOf [("id", .int 2)]])])]

def rulesItems : List ExtractRule :=
  [mkPathRule "all_ids" "$.data.items[*].id",
   mkPathRule "first_id" "$.data.items[0].id",
   mkPathRule "missing" "$.data.missing"]

/- A scenario with one step in every phase, and a phase runner whose
setup phase raises a scenario-level exception while the other phases
return normally. -/
def stepT : StepConfig := ⟨"t", "GET /x"⟩

def scBoom : ScenarioConfig := ⟨"s", "", .nil, [stepT], [stepT], [stepT]⟩

def tdResult : StepResult := ⟨"t", "GET /x", true, false, []⟩

def rpBoom : PhaseRunner :=
  fun ph _ => if ph = .setup then .error "boom" else .ok [tdResult]

/- A store whose global scope binds x to a heap-allocated list [1]
(cells 0, 1, 2 are the three scope dicts, cell 3 the list object). -/
def heapSnap : Heap :=
  [.cdict [("x", .href 3)], .cdict [], .cdict [], .clist [.hint 1]]

def cmRefSnap : CMRef := ⟨0, 1, 2⟩

/- A config dict that provides base_url with the value None. -/
def cfgNullBase : VDict := .ofList [("base_url", Value.none)]

/- v bound in all three scopes with three different values. -/
def ctxShadow : ContextManager :=
  ⟨.ofList [("v", .int 1)], .ofList [("v", .int 2)], .ofList [("v", .int 3)]⟩

/- v bound in step and global only. -/
def ctxShadowSG : ContextManager :=
  ⟨.ofList [("v", .int 1)], .nil, .ofList [("v", .int 3)]⟩

/- ===== Theorems ===== -/

/-- Claim C4: template resolution preserves native types for
whole-string markers and stringifies embedded markers: with x bound to
the integer 42, resolving the whole-marker template yields the integer
42 and resolving the embedded form yields the string n=42. -/
theorem c4_template_round_trip (m : ContextManager) (bs : BuiltinOracle)
    (h : m.get "x" Value.none = Value.int 42) :
    cmResolve m bs (.str tplWhole) = .ok (.int 42)
    ∧ cmResolve m bs (.str tplEmbed) = .ok (.str "n=42") := by
  constructor
  · have h1 : cmResolve m bs (.str tplWhole) = .ok (m.get "x" Value.none) := rfl
    rw [h1, h]
  · have h2 : cmResolve m bs (.str tplEmbed) =
        .ok (.str (String.mk ('n' :: '=' ::
          ((if m.get "x" Value.none = Value.none then []
            else pyStr (m.get "x" Value.none)) ++ [])))) := rfl
    rw [h2, h]
    rfl

/-- Witness for C4 at the store binding x to 42. -/
theorem c4_template_round_trip_witness :
    cmResolve (ContextManager.empty.set "x" (.int 42) .scenario) oracleBuiltins
        (.str tplWhole) = .ok (.int 42)
    ∧ cmResolve (ContextManager.empty.set "x" (.int 42) .scenario) oracleBuiltins
        (.str tplEmbed) = .ok (.str "n=42") :=
  c4_template_round_trip (ContextManager.empty.set "x" (.int 42) .scenario)
    oracleBuiltins rfl

/-- Claim C6, counterexample: a template whose marker calls an unknown
function makes resolution raise ValueError (Unknown function), it does
not resolve the marker to the empty string. -/
theorem c6_unknown_function_counterexample :
    cmResolve ContextManager.empty oracleBuiltins (.str tplUnknownFn)
        = .error "Unknown function: foo"
    ∧ cmResolve ContextManager.empty oracleBuiltins (.str tplUnknownFn)
        ≠ .ok (.str "") := by
  refine ⟨rfl, ?_⟩
  intro hcontra
  have he : cmResolve ContextManager.empty oracleBuiltins (.str tplUnknownFn)
      = (.error "Unknown function: foo" : Except String Value) := rfl
  rw [he] at hcontra
  exact Except.noConfusion hcontra

/-- Claim C6 as amended: an unknown function inside a marker raises
ValueError naming it (for any store and any builtin behavior), while a
marker referencing an unknown plain variable resolves to the safe
default, the empty string for an embedded marker. -/
theorem c6_unknown_function_amended (m : ContextManager) (bs : BuiltinOracle)
    (h : m.get "missing" Value.none = Value.none) :
    cmResolve m bs (.str tplUnknownFn) = .error "Unknown function: foo"
    ∧ cmResolve m bs (.str tplMissingVar) = .ok (.str "val=") := by
  constructor
  · rfl
  · have h2 : cmResolve m bs (.str tplMissingVar) =
        .ok (.str (String.mk ('v' :: 'a' :: 'l' :: '=' ::
          ((if m.get "missing" Value.none = Value.none then []
            else pyStr (m.get "missing" Value.none)) ++ [])))) := rfl
    rw [h2, h]
    rfl

/-- Witness for C6 at the empty store. -/
theorem c6_unknown_function_amended_witness :
    cmResolve ContextManager.empty oracleBuiltins (.str tplUnknownFn)
        = .error "Unknown function: foo"
    ∧ cmResolve ContextManager.empty oracleBuiltins (.str tplMissingVar)
        = .ok (.str "val=") :=
  c6_unknown_function_amended ContextManager.empty oracleBuiltins rfl

/-- Claim C7: extracting the wildcard path over the two-item body
yields the list of both ids, the indexed path yields the first id, and
the missing path yields no value, so its rule name is absent from the
result map; no error is raised, for every regex behavior. -/
theorem c7_path_extraction (rx : RegexOracle) :
    veExtract rx respItems rulesItems Option.none =
      .ok (VDict.ofList
        [("all_ids", Value.listOf [.int 1, .int 2]), ("first_id", .int 1)]) := rfl

/-- Claim C3: with age=25, balance=150, roles=[admin,user], the
conjunction expression evaluates to true, but the membership
expression evaluates to false (the module self-test expects true):
sandbox eval raises on both (the connective rewrite produces invalid
syntax, and the bare names are unbound in the restricted environment),
and the manual parser splits the membership expression at the first
occurrence of the operator text inside the quoted word admin. -/
theorem c3_condition_divergence :
    ceEvaluate oracleEvalErr oracleEvalU ctxCond oracleBuiltins exprAndStr Value.none
        = .ok true
    ∧ ceEvaluate oracleEvalErr oracleEvalU ctxCond oracleBuiltins exprInStr Value.none
        = .ok false := ⟨rfl, rfl⟩

/-- Claim C2, counterexample: an expression holding a marker that
calls an unknown function makes evaluate raise (ValueError propagating
out of template resolution) instead of returning a boolean. -/
theorem c2_counterexample :
    ceEvaluate oracleEvalErr oracleEvalU ContextManager.empty oracleBuiltins
      tplUnknownFn Value.none = .error "Unknown function: foo" := rfl

/-- once the resolved expression is a string, the evaluation itself
never raises: the sandboxed eval is tried and any exception falls back
to the manual parser, which is total. -/
theorem ceEvaluateExpression_str_ok (pyEval : String → Except String Value)
    (evalU : String → Option Value) (s : String) :
    ∃ b, ceEvaluateExpression pyEval evalU (.str s) = .ok b := by
  cases h : pyEval (String.mk (seqReplace " not ".data " not_ ".data
      (seqReplace " or ".data " or_ ".data
        (seqReplace " and ".data " and_ ".data s.data)))) with
  | ok r => exact ⟨pyTruthy r, by simp [ceEvaluateExpression, h]⟩
  | error e =>
      exact ⟨ceManualEvaluate evalU (seqReplace " not ".data " not_ ".data
        (seqReplace " or ".data " or_ ".data
          (seqReplace " and ".data " and_ ".data s.data))),
        by simp [ceEvaluateExpression, h]⟩

/-- Claim C2 as amended: evaluate returns a boolean and never raises
for every expression whose variable resolution succeeds with a string
(resolution itself can raise, and a whole-marker expression resolving
to a non-string raises AttributeError at the replace call); a
malformed expression, one the sandbox eval rejects with no operator,
marker or boolean literal in it, evaluates to false. -/
theorem c2_eval_total_amended (pyEval : String → Except String Value)
    (evalU : String → Option Value) (m : ContextManager) (bs : BuiltinOracle)
    (expr : String) (resp : Value) (s : String)
    (h : ceResolveVariables m bs expr resp = .ok (.str s))
    (emsg : String) (hmal : pyEval exprMalformed = .error emsg) :
    (∃ b, ceEvaluate pyEval evalU m bs expr resp = .ok b)
    ∧ ceEvaluate pyEval evalU ContextManager.empty bs exprMalformed Value.none
        = .ok false := by
  constructor
  · unfold ceEvaluate
    rw [h]
    exact ceEvaluateExpression_str_ok pyEval evalU s
  · have h2 : ceEvaluate pyEval evalU ContextManager.empty bs exprMalformed Value.none =
        (match pyEval exprMalformed with
         | .ok r => .ok (pyTruthy r)
         | .error _ => .ok (ceManualEvaluate evalU exprMalformed.data)) := rfl
    rw [h2, hmal]
    rfl

/-- Witness for C2 as amended: a resolvable expression and the
malformed one, under an eval oracle that raises everywhere. -/
theorem c2_eval_total_amended_witness :
    (∃ b, ceEvaluate oracleEvalErr oracleEvalU ContextManager.empty oracleBuiltins
        "true" Value.none = .ok b)
    ∧ ceEvaluate oracleEvalErr oracleEvalU ContextManager.empty oracleBuiltins
        exprMalformed Value.none = .ok false :=
  c2_eval_total_amended oracleEvalErr oracleEvalU ContextManager.empty
    oracleBuiltins "true" Value.none "true" rfl "NameError" rfl

/-- Claim C8, counterexample: with v bound in all three scopes, get
returns the step value, but after clear_step it returns the scenario
value, not the global one the claim names. -/
theorem c8_scope_counterexample :
    ctxShadow.step_vars.get "v" = some (.int 3)
    ∧ ctxShadow.global_vars.get "v" = some (.int 1)
    ∧ ctxShadow.get "v" Value.none = .int 3
    ∧ ctxShadow.clear_step.get "v" Value.none = .int 2
    ∧ Value.int 2 ≠ Value.int 1 := ⟨rfl, rfl, rfl, rfl, by decide⟩

/-- Claim C8 as amended: step shadows global on get; after clear_step,
get falls back to the global value provided the name is not bound in
scenario scope (which otherwise shadows it); clear_step touches
neither the scenario nor the global map; clear_scenario empties both
the scenario and the step maps. -/
theorem c8_scope_shadowing_amended (m : ContextManager) (v : String) (sv gv : Value)
    (hs : m.step_vars.get v = some sv) (hg : m.global_vars.get v = some gv) :
    m.get v Value.none = sv
    ∧ (m.clear_step.scenario_vars.get v = Option.none →
        m.clear_step.get v Value.none = gv)
    ∧ m.clear_step.scenario_vars = m.scenario_vars
    ∧ m.clear_step.global_vars = m.global_vars
    ∧ m.clear_scenario.scenario_vars = VDict.nil
    ∧ m.clear_scenario.step_vars = VDict.nil := by
  refine ⟨?_, ?_, rfl, rfl, rfl, rfl⟩
  · simp [ContextManager.get, hs]
  · intro hsc
    simp [ContextManager.clear_step] at hsc
    simp [ContextManager.get, ContextManager.clear_step, VDict.get, hsc, hg]

/-- Witness for C8 as amended at a store binding v in step and global
scope only. -/
theorem c8_scope_shadowing_amended_witness :
    ctxShadowSG.get "v" Value.none = .int 3 :=
  (c8_scope_shadowing_amended ctxShadowSG "v" (.int 3) (.int 1) rfl rfl).1

/-- Claim C10, counterexample: the config provides base_url (bound to
None) and a truthy default base URL exists, yet nothing is written to
global scope, because the provided value wins in config.get and is
falsy. -/
theorem c10_base_url_counterexample :
    cfgNullBase.get "base_url" = some Value.none
    ∧ pyTruthy (Value.str "http://example.com") = true
    ∧ (seInitGlobalConfig cfgNullBase (.str "http://example.com") (.int 30)
        ContextManager.empty).1.global_vars = VDict.nil := ⟨rfl, rfl, rfl⟩

/-- Claim C1, counterexample: a scenario-level exception raised during
the setup phase is caught by the except clause wrapping all three
phases, so the configured teardown step never runs and
teardown_results stays empty. -/
theorem c1_teardown_counterexample :
    scBoom.teardown = [stepT]
    ∧ (seExecute rpBoom scBoom).teardown_results = []
    ∧ (seExecute rpBoom scBoom).errors = ["场景执行异常: boom"] := ⟨rfl, rfl, rfl⟩

/-- statistics tallying only touches the counters. -/
theorem seTally_teardown_results (r : ScenarioResult) (sr : StepResult) :
    (seTally r sr).teardown_results = r.teardown_results := by
  unfold seTally
  split_ifs <;> rfl

/-- _update_stats leaves the result lists alone. -/
theorem seUpdateStats_teardown_results (rs : List StepResult) :
    ∀ r, (seUpdateStats r rs).teardown_results = r.teardown_results := by
  induction rs with
  | nil => intro r; rfl
  | cons a l ih =>
      intro r
      have hstep : seUpdateStats r (a :: l) = seUpdateStats (seTally r a) l := rfl
      rw [hstep, ih, seTally_teardown_results]

/-- Claim C1 as amended: teardown runs and its results are stored
whenever the setup and main phases complete without a scenario-level
exception, no matter how many of their steps failed (failed steps are
recorded inside the result lists, not raised); a scenario-level
exception in an earlier phase is caught by the except clause wrapping
all three phases, recorded in errors, and skips teardown (the
counterexample). -/
theorem c1_teardown_amended (rp : PhaseRunner) (sc : ScenarioConfig)
    (rs1 rs2 rs3 : List StepResult)
    (h1 : rp .setup sc.setup = .ok rs1) (h2 : rp .mainSteps sc.steps = .ok rs2)
    (h3 : rp .teardown sc.teardown = .ok rs3) (hne : sc.teardown ≠ []) :
    (seExecute rp sc).teardown_results = rs3 := by
  have hte : sc.teardown.isEmpty = false := by
    cases htd : sc.teardown with
    | nil => exact absurd htd hne
    | cons a l => rfl
  unfold seExecute sePhase
  by_cases hs : sc.setup.isEmpty <;> by_cases hm : sc.steps.isEmpty <;>
    simp [hs, hm, h1, h2, h3, hte, seUpdateStats_teardown_results]

/-- Witness for C1 as amended: a one-step teardown scenario whose
phase runner never raises, with a failing main step. -/
theorem c1_teardown_amended_witness :
    ScenarioResult.teardown_results
        (seExecute (fun _ _ => .ok [⟨"t", "GET /x", false, false, ["boom"]⟩]) scBoom)
      = [⟨"t", "GET /x", false, false, ["boom"]⟩] :=
  c1_teardown_amended (fun _ _ => .ok [⟨"t", "GET /x", false, false, ["boom"]⟩])
    scBoom _ _ _ rfl rfl rfl (by decide)

/-- single-motive structural induction for VDict (the mutual recursor
of the value family has several motives, which the induction tactic
does not accept). -/
theorem VDict.inductionOn (P : VDict → Prop) (hnil : P .nil)
    (hcons : ∀ k v t, P t → P (.cons k v t)) : ∀ d, P d
  | .nil => hnil
  | .cons k v t => hcons k v t (VDict.inductionOn P hnil hcons t)

/-- dict update then lookup of the same key. -/
theorem VDict.get_set_self (d : VDict) (k : String) (v : Value) :
    (d.set k v).get k = some v := by
  induction d using VDict.inductionOn with
  | hnil => simp [VDict.set, VDict.get]
  | hcons k0 v0 rest ih =>
      by_cases h : k0 = k
      · simp [VDict.set, VDict.get, h]
      · simp [VDict.set, VDict.get, h, ih]

/-- dict update then lookup of a different key. -/
theorem VDict.get_set_ne (d : VDict) (k' k : String) (v : Value) (h : k' ≠ k) :
    (d.set k' v).get k = d.get k := by
  induction d using VDict.inductionOn with
  | hnil => simp [VDict.set, VDict.get, h]
  | hcons k0 v0 rest ih =>
      by_cases h0 : k0 = k'
      · simp [VDict.set, VDict.get, h0, h]
      · simp [VDict.set, VDict.get, h0, ih]

/-- seeding writes only into global scope. -/
theorem seSeedGlobals_scenario_vars (c : VDict) :
    ∀ m, (seSeedGlobals c m).scenario_vars = m.scenario_vars := by
  induction c using VDict.inductionOn with
  | hnil => intro m; rfl
  | hcons k v rest ih =>
      intro m
      by_cases h : seReserved k
      · simp [seSeedGlobals, h, ih]
      · simp [seSeedGlobals, h, ih, ContextManager.set]

theorem seSeedGlobals_step_vars (c : VDict) :
    ∀ m, (seSeedGlobals c m).step_vars = m.step_vars := by
  induction c using VDict.inductionOn with
  | hnil => intro m; rfl
  | hcons k v rest ih =>
      intro m
      by_cases h : seReserved k
      · simp [seSeedGlobals, h, ih]
      · simp [seSeedGlobals, h, ih, ContextManager.set]

/-- seeding never writes a reserved key. -/
theorem seSeedGlobals_get_reserved (c : VDict) (k : String) (hk : seReserved k = true) :
    ∀ m, (seSeedGlobals c m).global_vars.get k = m.global_vars.get k := by
  induction c using VDict.inductionOn with
  | hnil => intro m; rfl
  | hcons k0 v0 rest ih =>
      intro m
      by_cases h0 : seReserved k0
      · simp [seSeedGlobals, h0, ih]
      · have hne : k0 ≠ k := by
          intro he
          rw [he] at h0
          exact h0 hk
        simp [seSeedGlobals, h0, ih, ContextManager.set, VDict.get_set_ne _ _ _ _ hne]

/-- seeding leaves keys outside the config dict alone. -/
theorem seSeedGlobals_get_absent (c : VDict) (k : String) (hk : k ∉ c.keys) :
    ∀ m, (seSeedGlobals c m).global_vars.get k = m.global_vars.get k := by
  induction c using VDict.inductionOn with
  | hnil => intro m; rfl
  | hcons k0 v0 rest ih =>
      intro m
      have hk0 : k0 ≠ k := by
        intro he
        exact hk (by simp [VDict.keys, he])
      have hkrest : k ∉ rest.keys := by
        intro hmem
        exact hk (by simp [VDict.keys, hmem])
      by_cases h0 : seReserved k0
      · simp [seSeedGlobals, h0, ih hkrest]
      · simp [seSeedGlobals, h0, ih hkrest, ContextManager.set,
          VDict.get_set_ne _ _ _ _ hk0]

/-- seeding writes every non-reserved config entry into global scope. -/
theorem seSeedGlobals_get_entry (c : VDict) (k : String) (v : Value)
    (hnd : c.keys.Nodup) (hget : c.get k = some v) (hres : seReserved k = false) :
    ∀ m, (seSeedGlobals c m).global_vars.get k = some v := by
  induction c using VDict.inductionOn with
  | hnil => intro m; exact absurd hget (by simp [VDict.get])
  | hcons k0 v0 rest ih =>
      intro m
      have hnd0 : k0 ∉ rest.keys := by
        have := hnd
        simp [VDict.keys] at this
        exact this.1
      have hndrest : rest.keys.Nodup := by
        have := hnd
        simp [VDict.keys] at this
        exact this.2
      by_cases he : k0 = k
      · subst he
        have hv : v0 = v := by
          simp [VDict.get] at hget
          exact hget
        subst hv
        rw [seSeedGlobals, if_neg (by simp [hres])]
        rw [seSeedGlobals_get_absent rest k0 hnd0]
        exact VDict.get_set_self _ _ _
      · have hget0 : rest.get k = some v := by
          simpa [VDict.get, he] using hget
        by_cases h0 : seReserved k0
        · simp [seSeedGlobals, h0, ih hndrest hget0]
        · simp [seSeedGlobals, h0, ih hndrest hget0]

/-- get only depends on the per-scope lookups of the name. -/
theorem ContextManager.get_congr (m1 m2 : ContextManager) (k : String) (d : Value)
    (h1 : m1.step_vars.get k = m2.step_vars.get k)
    (h2 : m1.scenario_vars.get k = m2.scenario_vars.get k)
    (h3 : m1.global_vars.get k = m2.global_vars.get k) :
    m1.get k d = m2.get k d := by
  unfold ContextManager.get
  rw [h1, h2, h3]

/-- Claim C10 as amended: every non-reserved config entry is seeded
into global scope with its value; base_url is written exactly when the
value config.get gives for it (the provided entry, else the default)
is truthy, so a provided null or empty base_url is not written even
when a default exists (the counterexample); timeout and retry are
never written into any scope, so get still falls through to the
default for them. -/
theorem c10_config_seeding_amended (config : VDict) (dflt tmo : Value)
    (m : ContextManager) (hnd : config.keys.Nodup) :
    (∀ k v, config.get k = some v → seReserved k = false →
        (seInitGlobalConfig config dflt tmo m).1.global_vars.get k = some v)
    ∧ (pyTruthy ((config.get "base_url").getD dflt) = true →
        (seInitGlobalConfig config dflt tmo m).1.global_vars.get "base_url"
          = some ((config.get "base_url").getD dflt))
    ∧ (pyTruthy ((config.get "base_url").getD dflt) = false →
        (seInitGlobalConfig config dflt tmo m).1.global_vars.get "base_url"
          = m.global_vars.get "base_url")
    ∧ (∀ d, (seInitGlobalConfig config dflt tmo m).1.get "timeout" d
        = m.get "timeout" d)
    ∧ (∀ d, (seInitGlobalConfig config dflt tmo m).1.get "retry" d
        = m.get "retry" d) := by
  refine ⟨?_, ?_, ?_, ?_, ?_⟩
  · intro k v hget hres
    exact seSeedGlobals_get_entry config k v hnd hget hres _
  · intro ht
    unfold seInitGlobalConfig
    rw [seSeedGlobals_get_reserved config "base_url" rfl]
    simp only [ht, if_true]
    exact VDict.get_set_self _ _ _
  · intro ht
    unfold seInitGlobalConfig
    rw [seSeedGlobals_get_reserved config "base_url" rfl]
    simp [ht]
  · intro d
    simp only [seInitGlobalConfig]
    apply ContextManager.get_congr
    · rw [seSeedGlobals_step_vars]
      split_ifs <;> rfl
    · rw [seSeedGlobals_scenario_vars]
      split_ifs <;> rfl
    · rw [seSeedGlobals_get_reserved config "timeout" rfl]
      split_ifs with hbu
      · exact VDict.get_set_ne _ _ _ _ (by decide)
      · rfl
  · intro d
    simp only [seInitGlobalConfig]
    apply ContextManager.get_congr
    · rw [seSeedGlobals_step_vars]
      split_ifs <;> rfl
    · rw [seSeedGlobals_scenario_vars]
      split_ifs <;> rfl
    · rw [seSeedGlobals_get_reserved config "retry" rfl]
      split_ifs with hbu
      · exact VDict.get_set_ne _ _ _ _ (by decide)
      · rfl

/-- Witness for C10 as amended at a config holding one custom key and
a null base_url, with a default base URL present. -/
theorem c10_config_seeding_amended_witness :
    (seInitGlobalConfig (VDict.ofList [("base_url", Value.none), ("env", .str "qa")])
        (.str "http://example.com") (.int 30) ContextManager.empty).1.global_vars.get
      "env" = some (.str "qa") :=
  (c10_config_seeding_amended
      (VDict.ofList [("base_url", Value.none), ("env", .str "qa")])
      (.str "http://example.com") (.int 30) ContextManager.empty
      (by decide)).1 "env" (.str "qa") rfl rfl

/-- heap extension is reflexive. -/
theorem heapExtends_refl (h : Heap) : heapExtends h h :=
  ⟨Nat.le_refl _, fun _ _ => rfl⟩

/-- heap extension is transitive. -/
theorem heapExtends_trans {h1 h2 h3 : Heap}
    (a : heapExtends h1 h2) (b : heapExtends h2 h3) : heapExtends h1 h3 :=
  ⟨Nat.le_trans a.1 b.1,
   fun i hi => (b.2 i (Nat.lt_of_lt_of_le hi a.1)).trans (a.2 i hi)⟩

/-- allocation (appending cells) extends the heap. -/
theorem heapExtends_append (h : Heap) (t : List HCell) : heapExtends h (h ++ t) :=
  ⟨by simp, fun i hi => List.getElem?_append_left hi⟩

/-- resolve in the reference model only allocates: the heaps its three
mutually recursive workers return extend their inputs, so every cell
existing before the call is unchanged by it. -/
theorem hResolve_extends_all (f : StrResolver) : ∀ fuel : Nat,
    (∀ h v, heapExtends h (hResolve f fuel h v).1)
    ∧ (∀ h xs, heapExtends h (hResolveItems f fuel h xs).1)
    ∧ (∀ h kvs, heapExtends h (hResolveKVs f fuel h kvs).1) := by
  intro fuel
  induction fuel with
  | zero =>
      exact ⟨fun h v => heapExtends_refl h, fun h xs => heapExtends_refl h,
        fun h kvs => heapExtends_refl h⟩
  | succ n ih =>
      obtain ⟨ihv, ihl, ihd⟩ := ih
      refine ⟨?_, ?_, ?_⟩
      · intro h v
        match v with
        | .hstr s => exact heapExtends_refl h
        | .hnone => exact heapExtends_refl h
        | .hbool b => exact heapExtends_refl h
        | .hint n0 => exact heapExtends_refl h
        | .hfloat q => exact heapExtends_refl h
        | .href a =>
            show heapExtends h (hResolve f (n + 1) h (.href a)).1
            rw [hResolve]
            cases hc : h[a]? with
            | none => exact heapExtends_refl h
            | some cell =>
                cases cell with
                | cdict kvs =>
                    have hd := ihd h kvs
                    cases hres : hResolveKVs f n h kvs with
                    | mk h2 r =>
                        rw [hres] at hd
                        cases r with
                        | ok kvs2 =>
                            simp only [hres]
                            exact heapExtends_trans hd (heapExtends_append h2 _)
                        | error e =>
                            simp only [hres]
                            exact hd
                | clist xs =>
                    have hl := ihl h xs
                    cases hres : hResolveItems f n h xs with
                    | mk h2 r =>
                        rw [hres] at hl
                        cases r with
                        | ok xs2 =>
                            simp only [hres]
                            exact heapExtends_trans hl (heapExtends_append h2 _)
                        | error e =>
                            simp only [hres]
                            exact hl
      · intro h xs
        match xs with
        | [] => exact heapExtends_refl h
        | x :: rest =>
            show heapExtends h (hResolveItems f (n + 1) h (x :: rest)).1
            rw [hResolveItems]
            have hv := ihv h x
            cases hres : hResolve f n h x with
            | mk h2 r =>
                rw [hres] at hv
                cases r with
                | ok x2 =>
                    have hl := ihl h2 rest
                    cases hres2 : hResolveItems f n h2 rest with
                    | mk h3 r2 =>
                        rw [hres2] at hl
                        cases r2 with
                        | ok xs2 =>
                            simp only [hres, hres2]
                            exact heapExtends_trans hv hl
                        | error e =>
                            simp only [hres, hres2]
                            exact heapExtends_trans hv hl
                | error e =>
                    simp only [hres]
                    exact hv
      · intro h kvs
        match kvs with
        | [] => exact heapExtends_refl h
        | (k, v) :: rest =>
            show heapExtends h (hResolveKVs f (n + 1) h ((k, v) :: rest)).1
            rw [hResolveKVs]
            have hv := ihv h v
            cases hres : hResolve f n h v with
            | mk h2 r =>
                rw [hres] at hv
                cases r with
                | ok v2 =>
                    have hd := ihd h2 rest
                    cases hres2 : hResolveKVs f n h2 rest with
                    | mk h3 r2 =>
                        rw [hres2] at hd
                        cases r2 with
                        | ok kvs2 =>
                            simp only [hres, hres2]
                            exact heapExtends_trans hv hd
                        | error e =>
                            simp only [hres, hres2]
                            exact heapExtends_trans hv hd
                | error e =>
                    simp only [hres]
                    exact hv

/-- Claim C9: resolve never mutates its argument: for every heap, fuel
and template value, the heap after resolution agrees with the original
on every pre-existing address, so the input template (and any other
object alive before the call) is structurally identical before and
after; the containers of the result are freshly allocated above the
old heap top. -/
theorem c9_resolve_no_mutation (f : StrResolver) (fuel : Nat) (h : Heap) (v : HVal)
    (a : Nat) (ha : a < h.length) :
    (hResolve f fuel h v).1[a]? = h[a]? := by
  have hx := (hResolve_extends_all f fuel).1 h v
  exact hx.2 a ha

/-- Witness for C9: resolving a list template sharing a cell with a
dict leaves the original cells intact. -/
theorem c9_resolve_no_mutation_witness :
    (hResolve (fun s => .ok (.hstr s)) 4
        [HCell.clist [.hint 1, .hstr "a"], HCell.cdict [("y", .href 0)]]
        (.href 1)).1[0]? = some (HCell.clist [.hint 1, .hstr "a"])
    ∧ (hResolve (fun s => .ok (.hstr s)) 4
        [HCell.clist [.hint 1, .hstr "a"], HCell.cdict [("y", .href 0)]]
        (.href 1)).1[1]? = some (HCell.cdict [("y", .href 0)]) := by
  constructor
  · rw [c9_resolve_no_mutation (fun s => .ok (.hstr s)) 4
      [HCell.clist [.hint 1, .hstr "a"], HCell.cdict [("y", .href 0)]] (.href 1) 0
      (by decide)]
    rfl
  · rw [c9_resolve_no_mutation (fun s => .ok (.hstr s)) 4
      [HCell.clist [.hint 1, .hstr "a"], HCell.cdict [("y", .href 0)]] (.href 1) 1
      (by decide)]
    rfl

/-- Claim C5, counterexample: the store binds x (global scope) to a
heap-allocated list [1]; to_dict copies the scope dicts, yet appending
2 to that list object afterwards, an in-place mutation of a value
reachable from the scope maps, changes the value the stored snapshot
denotes, because the copy is shallow and shares the list. -/
theorem c5_snapshot_counterexample :
    hDenote 8 heapSnap (.href cmRefSnap.gaddr)
        = Value.dictOf [("x", Value.listOf [.int 1])]
    ∧ hDenote 8 (cmToDictRef heapSnap cmRefSnap).1
        (.href (cmToDictRef heapSnap cmRefSnap).2.ga)
      = Value.dictOf [("x", Value.listOf [.int 1])]
    ∧ hDenote 8 ((cmToDictRef heapSnap cmRefSnap).1.set 3 (.clist [.hint 1, .hint 2]))
        (.href (cmToDictRef heapSnap cmRefSnap).2.ga)
      = Value.dictOf [("x", Value.listOf [.int 1, .int 2])]
    ∧ Value.dictOf [("x", Value.listOf [.int 1])]
        ≠ Value.dictOf [("x", Value.listOf [.int 1, .int 2])] :=
  ⟨rfl, rfl, rfl, by decide⟩

/-- a set through the store writes only at the scope address, leaving
the bindings of every other cell alone. -/
theorem cmSetRef_kvsAt_other (h : Heap) (m : CMRef) (name : String) (v : HVal)
    (sc : Scope) (j : Nat) (hj : scopeAddr m sc ≠ j) :
    kvsAt (cmSetRef h m name v sc) j = kvsAt h j := by
  unfold cmSetRef kvsAt
  cases hc : h[scopeAddr m sc]? with
  | none => simp only [hc]
  | some cell =>
      cases cell with
      | clist xs => simp only [hc]
      | cdict kvs => simp only [hc, List.getElem?_set_ne hj]

/-- Claim C5 as amended: the snapshot of to_dict copies the three
top-level scope dicts, so rebinding variables in the Context Store
afterwards leaves every snapshot entry unchanged; but the copy is
shallow, so an in-place mutation of a mutable value shared between a
scope and the snapshot does change what the snapshot denotes (the
counterexample). -/
theorem c5_snapshot_amended (h : Heap) (m : CMRef) (name : String) (v : HVal)
    (sc : Scope) (ha : scopeAddr m sc < h.length) :
    kvsAt (cmSetRef (cmToDictRef h m).1 m name v sc) (cmToDictRef h m).2.ga
        = kvsAt (cmToDictRef h m).1 (cmToDictRef h m).2.ga
    ∧ kvsAt (cmSetRef (cmToDictRef h m).1 m name v sc) (cmToDictRef h m).2.sa
        = kvsAt (cmToDictRef h m).1 (cmToDictRef h m).2.sa
    ∧ kvsAt (cmSetRef (cmToDictRef h m).1 m name v sc) (cmToDictRef h m).2.sta
        = kvsAt (cmToDictRef h m).1 (cmToDictRef h m).2.sta := by
  refine ⟨?_, ?_, ?_⟩
  · exact cmSetRef_kvsAt_other _ m name v sc _ (by simp [cmToDictRef]; omega)
  · exact cmSetRef_kvsAt_other _ m name v sc _ (by simp [cmToDictRef]; omega)
  · exact cmSetRef_kvsAt_other _ m name v sc _ (by simp [cmToDictRef]; omega)

/-- Witness for C5 as amended at the concrete store of the
counterexample. -/
theorem c5_snapshot_amended_witness :
    kvsAt (cmSetRef (cmToDictRef heapSnap cmRefSnap).1 cmRefSnap "y" (.hint 9) .global)
        (cmToDictRef heapSnap cmRefSnap).2.ga
      = kvsAt (cmToDictRef heapSnap cmRefSnap).1 (cmToDictRef heapSnap cmRefSnap).2.ga :=
  (c5_snapshot_amended heapSnap cmRefSnap "y" (.hint 9) .global (by decide)).1
